import Mathlib

/-!
# Google search scraper: the crawl orchestration of `src/main.js`

A shallow embedding of `src/main.js`.  The modules it requires (`./consts`, `./tools`,
`./extractors_desktop`, `./extractors_mobile`, node's `url`) are collected in the record `Env`
and are parameters of every definition.  What a handler writes (the items it pushes to the
default dataset, the requests it hands to the request queue) is the explicit state `Store`;
the queue of the crawler library, which de-duplicates by URL, is `RequestQueue`.

A handler that throws keeps the effects it had performed so far, so a handler is a function
`Store → Except JsError Unit × Store`: the outcome of the invocation and the state after it.
-/

namespace GoogleSearchScraper

/-- Values a promise of the actor is rejected with. -/
inductive JsError where
  -- an `Error` object, `new Error(message)`
  | error (message : String)
  -- a `TypeError`: property access on `null` or `undefined`
  | typeError
  deriving DecidableEq, Repr

/-- A value produced by a collaborator and stored as is (debug info, extracted results,
custom data), in serialised form. -/
abbrev Json := String

/-- The `userData` of a request: the zero-based page index and the two timestamps
that `requestFunction` and `handlePageFunction` write. -/
structure UserData where
  page : Int
  startedAt : Option Nat
  finishedAt : Option Nat
  deriving DecidableEq, Repr

/-- A request (unit of work): `{ url, userData }`. -/
structure Request where
  url : String
  userData : UserData
  deriving DecidableEq, Repr

/-- The HTTP response handed to the page handler. -/
structure Response where
  statusCode : Nat
  deriving DecidableEq, Repr

/-- The cheerio handle `$` of a fetched page: `attr selector name` is
`$(selector).attr(name)`, which is `undefined` (`none`) when no element matches or the
attribute is missing. -/
structure Cheerio where
  attr : String → String → Option String

/-- The `query` object of `url.parse(u, true)`, restricted to the keys `main.js` reads. -/
structure ParsedQuery where
  q : Option String
  hl : Option String
  uule : Option String
  num : Option String
  deriving DecidableEq, Repr

/-- The result of `url.parse(u, true)`; `host` is `null` for a URL without one. -/
structure ParsedUrl where
  host : Option String
  query : ParsedQuery
  deriving DecidableEq, Repr

/-- A regular expression object: `exec s` is `null` (`none`) when `s` does not match, else
the array of the match and its capture groups, a group that took no part being `undefined`. -/
structure RegExp where
  exec : String → Option (List (Option String))

/-- One of the modules `./extractors_desktop` and `./extractors_mobile`. -/
structure Extractors where
  extractTotalResults : Cheerio → Json
  extractRelatedQueries : Cheerio → Option String → Json
  extractPaidResults : Cheerio → Json
  extractPaidProducts : Cheerio → Json
  extractOgranicResults : Cheerio → Json

/-- The actor input, restricted to the fields `main.js` destructures; `queries` stands for
everything else, which only `getInitialRequests` reads.  An absent limit is `none`. -/
structure Input where
  queries : String
  maxConcurrency : Option Int
  maxPagesPerQuery : Option Int
  customDataFunction : Option String
  mobileResults : Bool
  saveHtml : Bool
  deriving DecidableEq, Repr

/-- What `main.js` imports: the constants of `./consts`, the functions of `./tools`, the two
extractor modules and `url.parse`. -/
structure Env where
  GOOGLE_DEFAULT_RESULTS_PER_PAGE : Nat
  DEFAULT_GOOGLE_SEARCH_DOMAIN_COUNTRY_CODE : String
  GOOGLE_SEARCH_DOMAIN_TO_COUNTRY_CODE : List (String × String)
  GOOGLE_SEARCH_URL_REGEX : RegExp
  extractorsDesktop : Extractors
  extractorsMobile : Extractors
  getInitialRequests : Input → List Request
  executeCustomDataFunction :
    String → Input → Cheerio → Request → Response → String → Except JsError Json
  createSerpRequest : String → Int → Request
  createDebugInfo : Request → Option Response → Json
  ensureAccessToSerpProxy : Except JsError Unit
  urlParse : String → ParsedUrl

/-- The value of `parsedUrl.query.num || GOOGLE_DEFAULT_RESULTS_PER_PAGE`: the string of the
URL or the numeric constant. -/
inductive ResultsPerPage where
  | fromUrl (num : String)
  | fromConst (n : Nat)
  deriving DecidableEq, Repr

/-- The `searchQuery` object of a dataset item. -/
structure SearchQuery where
  term : Option String
  device : String
  page : Int
  type : String
  domain : String
  countryCode : String
  languageCode : Option String
  locationUule : Option String
  resultsPerPage : ResultsPerPage
  deriving DecidableEq, Repr

/-- The object `data` that `handlePageFunction` composes; `debug` and `error` are the keys
`'#debug'` and `'#error'`, and `html` is set only when `saveHtml` is on. -/
structure PageData where
  debug : Json
  error : Bool
  searchQuery : SearchQuery
  url : String
  hasNextPage : Bool
  resultsTotal : Json
  relatedQueries : Json
  paidResults : Json
  paidProducts : Json
  organicResults : Json
  customData : Option Json
  html : Option String
  deriving DecidableEq, Repr

/-- The object that `handleFailedRequestFunction` pushes. -/
structure FailureData where
  debug : Json
  error : Bool
  deriving DecidableEq, Repr

/-- An item of the dataset. -/
inductive DatasetItem where
  | page (data : PageData)
  | failed (data : FailureData)
  deriving DecidableEq, Repr

/-- The `'#error'` key of a dataset item. -/
def DatasetItem.error : DatasetItem → Bool
  | .page data => data.error
  | .failed data => data.error

/-- The state a handler acts on: the items pushed to the default dataset (oldest first) and
the requests handed to `requestQueue.addRequest` (oldest first). -/
structure Store where
  dataset : List DatasetItem
  queue : List Request
  deriving DecidableEq, Repr

/-- Truthiness of a value that is a string or `undefined`: only a non-empty string is truthy. -/
def truthy : Option String → Bool
  | some s => decide (s ≠ "")
  | none => false

/-- The JavaScript `a || b` on an optional string: `a` when it is truthy, else `b`. -/
def orElse (a : Option String) (b : Option String) : Option String :=
  if truthy a then a else b

/-- The JavaScript template literal of a value that is a string or `null`. -/
def template : Option String → String
  | some s => s
  | none => "null"

/-- The JavaScript `toLowerCase` on the ASCII letters; search domains are ASCII. -/
def toLowerCase (s : String) : String :=
  String.mk (s.data.map Char.toLower)

/-- Lines 54-55: `GOOGLE_SEARCH_URL_REGEX.exec(request.url)` then `matches[3].toLowerCase()`.
Reading `[3]` of `null`, or `.toLowerCase` of `undefined`, throws a `TypeError`. -/
def searchDomain (env : Env) (url : String) : Except JsError String :=
  match env.GOOGLE_SEARCH_URL_REGEX.exec url with
  | none => .error .typeError
  | some matched =>
    match matched.get? 3 with
    | some (some group) => .ok (toLowerCase group)
    | _ => .error .typeError

/-- Line 67: `GOOGLE_SEARCH_DOMAIN_TO_COUNTRY_CODE[domain] || DEFAULT_GOOGLE_SEARCH_DOMAIN_COUNTRY_CODE`,
the table being read as a dictionary of its own keys. -/
def countryCode (env : Env) (domain : String) : String :=
  match env.GOOGLE_SEARCH_DOMAIN_TO_COUNTRY_CODE.lookup domain with
  | some code => if code ≠ "" then code else env.DEFAULT_GOOGLE_SEARCH_DOMAIN_COUNTRY_CODE
  | none => env.DEFAULT_GOOGLE_SEARCH_DOMAIN_COUNTRY_CODE

/-- Line 90: `request.userData.page < maxPagesPerQuery - 1 && maxPagesPerQuery`, as a
condition.  With the limit `undefined` the difference is `NaN` and the comparison is false;
the second operand is falsy exactly when the limit is `0`. -/
def belowLimit (page : Int) : Option Int → Bool
  | some maxPagesPerQuery => decide (page < maxPagesPerQuery - 1 ∧ maxPagesPerQuery ≠ 0)
  | none => false

/-- Lines 79-81: the `customData` field.  The hook runs only when `customDataFunction` is
truthy; its rejection rejects the handler.  The hook is a function of its arguments: it
returns a value or fails, and does not itself write to the dataset or the queue. -/
def customData (env : Env) (input : Input) (dollar : Cheerio) (request : Request)
    (response : Response) (html : String) : Except JsError (Option Json) :=
  if truthy input.customDataFunction then
    match input.customDataFunction with
    | some customDataFunction =>
      match env.executeCustomDataFunction customDataFunction input dollar request response html with
      | .ok value => .ok (some value)
      | .error e => .error e
    | none => .ok none
  else .ok none

/-- Line 39: `request.userData.startedAt = new Date()`. -/
def setStartedAt (request : Request) (now : Nat) : Request :=
  { request with userData := { request.userData with startedAt := some now } }

/-- Line 48: `request.userData.finishedAt = new Date()`. -/
def setFinishedAt (request : Request) (now : Nat) : Request :=
  { request with userData := { request.userData with finishedAt := some now } }

/-- Lines 47-101, `handlePageFunction`.  `now` is the reading of `new Date()` at line 48; the
log calls are left out.  The outcome comes with the state after the invocation. -/
def handlePageFunction (env : Env) (input : Input) (now : Nat) (request0 : Request)
    (response : Response) (html : String) (dollar : Cheerio) (st : Store) :
    Except JsError Unit × Store :=
  let request := setFinishedAt request0 now
  let nonzeroPage := request.userData.page + 1
  let parsedUrl := env.urlParse request.url
  match searchDomain env request.url with
  | .error e => (.error e, st)
  | .ok domain =>
    let extractors := if input.mobileResults then env.extractorsMobile else env.extractorsDesktop
    match customData env input dollar request response html with
    | .error e => (.error e, st)
    | .ok custom =>
      let data : PageData :=
        { debug := env.createDebugInfo request (some response)
          error := false
          searchQuery :=
            { term := parsedUrl.query.q
              device := if input.mobileResults then "MOBILE" else "DESKTOP"
              page := nonzeroPage
              type := "SEARCH"
              domain := domain
              countryCode := countryCode env domain
              languageCode := orElse parsedUrl.query.hl none
              locationUule := orElse parsedUrl.query.uule none
              resultsPerPage :=
                if truthy parsedUrl.query.num then
                  match parsedUrl.query.num with
                  | some num => .fromUrl num
                  | none => .fromConst env.GOOGLE_DEFAULT_RESULTS_PER_PAGE
                else .fromConst env.GOOGLE_DEFAULT_RESULTS_PER_PAGE }
          url := request.url
          hasNextPage := false
          resultsTotal := extractors.extractTotalResults dollar
          relatedQueries := extractors.extractRelatedQueries dollar parsedUrl.host
          paidResults := extractors.extractPaidResults dollar
          paidProducts := extractors.extractPaidProducts dollar
          organicResults := extractors.extractOgranicResults dollar
          customData := custom
          html := none }
      let data := if input.saveHtml then { data with html := some html } else data
      -- Enqueue new page.
      let nextPageUrl := dollar.attr "#pnnext" "href"
      let data := if truthy nextPageUrl then { data with hasNextPage := true } else data
      let queue :=
        if truthy nextPageUrl ∧ belowLimit request.userData.page input.maxPagesPerQuery then
          st.queue ++
            [env.createSerpRequest ("http://" ++ template parsedUrl.host ++ template nextPageUrl)
              (request.userData.page + 1)]
        else st.queue
      (.ok (), { dataset := st.dataset ++ [.page data], queue := queue })

/-- Lines 102-107, `handleFailedRequestFunction`: `Apify.pushData` appends to the default
dataset, the one `handlePageFunction` pushes to. -/
def handleFailedRequestFunction (env : Env) (request : Request) (st : Store) : Store :=
  { st with
    dataset := st.dataset ++ [.failed { debug := env.createDebugInfo request none, error := true }] }

/-- What the transport hands over for a URL: `none` when the fetch fails for good, else the
response, the raw page and its cheerio handle. -/
abbrev Fetch := String → Option (Response × String × Cheerio)

/-- Modelled from the spec: the work queue of sections 3 and 6 (the request queue of the
crawler library, opened at line 28), which supports enqueue with de-duplication by URL.
`pending` holds the requests waiting to be claimed, next first; `seen` holds the URL of every
request the queue ever accepted, pending or handled. -/
structure RequestQueue where
  pending : List Request
  seen : List String
  deriving DecidableEq, Repr

/-- Modelled from the spec: `requestQueue.addRequest` of the work queue, "enqueue of
UnitOfWork with de-duplication by URL" (section 6).  A request whose URL the queue has
seen is dropped; another one goes to the back, or to the front with `forefront`. -/
def RequestQueue.addRequest (queue : RequestQueue) (request : Request) (forefront : Bool) :
    RequestQueue :=
  if request.url ∈ queue.seen then queue
  else
    { pending := if forefront then request :: queue.pending else queue.pending ++ [request]
      seen := request.url :: queue.seen }

/-- Modelled from the spec: the claim-once fetch of the work queue (section 6), the next
pending request together with the queue without it. -/
def RequestQueue.fetchNextRequest (queue : RequestQueue) : Option (Request × RequestQueue) :=
  match queue.pending with
  | [] => none
  | request :: pending => some (request, { queue with pending := pending })

/-- One unit of work of the crawler: `requestFunction` (lines 37-42) stamps the start time
and fetches; a fetched page goes to `handlePageFunction`; a fetch that fails for good, or a
handler that throws, ends in `handleFailedRequestFunction`.  The clock reads `clock` at the
start and `clock + 1` in the page handler.  The handler runs on the dataset and an empty
list of additions; the requests it hands to `addRequest` then pass through the queue, which
drops those whose URL it has seen. -/
def processRequest (env : Env) (input : Input) (fetch : Fetch) (clock : Nat)
    (request0 : Request) (queue : RequestQueue) (dataset : List DatasetItem) :
    List DatasetItem × RequestQueue :=
  let request := setStartedAt request0 clock
  match fetch request.url with
  | none => ((handleFailedRequestFunction env request ⟨dataset, []⟩).dataset, queue)
  | some (response, html, dollar) =>
    match handlePageFunction env input (clock + 1) request response html dollar ⟨dataset, []⟩ with
    | (.ok (), st1) =>
      (st1.dataset, st1.queue.foldl (fun q added => q.addRequest added false) queue)
    | (.error _, st1) =>
      ((handleFailedRequestFunction env (setFinishedAt request (clock + 1)) st1).dataset,
        st1.queue.foldl (fun q added => q.addRequest added false) queue)

/-- Modelled from the spec: line 111, `crawler.run()`, the crawl driver of section 4.5 with
one unit in flight.  While the request list has a source left, the source is added to the
front of the queue (the queue drops it when it has seen its URL) and the next pending request
is processed; afterwards the queue is drained.  The run ends when the request list and the
queue are both empty; the result is `none` when the fuel runs out before that.  The retries
of the transport are not part of the loop. -/
def crawlerRun (env : Env) (input : Input) (fetch : Fetch) :
    Nat → Nat → List Request → RequestQueue → List DatasetItem → Option Store
  | 0, _, requestList, queue, dataset =>
    if requestList = [] ∧ queue.pending = [] then some ⟨dataset, []⟩ else none
  | fuel + 1, clock, [], queue, dataset =>
    match queue.fetchNextRequest with
    | none => some ⟨dataset, []⟩
    | some (request, queue1) =>
      crawlerRun env input fetch fuel (clock + 2) []
        (processRequest env input fetch clock request queue1 dataset).2
        (processRequest env input fetch clock request queue1 dataset).1
  | fuel + 1, clock, source :: requestList, queue, dataset =>
    match (queue.addRequest source true).fetchNextRequest with
    | none => crawlerRun env input fetch fuel clock requestList (queue.addRequest source true) dataset
    | some (request, queue1) =>
      crawlerRun env input fetch fuel (clock + 2) requestList
        (processRequest env input fetch clock request queue1 dataset).2
        (processRequest env input fetch clock request queue1 dataset).1

/-- The storages and the crawler that `Apify.main` touches, in the order it touches them. -/
inductive Event where
  | openRequestList (name : String) (sources : List Request)
  | openRequestQueue
  | openDataset
  | crawlerRun
  deriving DecidableEq, Repr

/-- How a run ended: its outcome, the storages it opened and whether it ran the crawler, and
the dataset and queue it left. -/
structure RunResult where
  outcome : Except JsError Unit
  events : List Event
  store : Store

/-- Lines 15-125, the function given to `Apify.main`, on the input `Apify.getInput()`
returned.  The result is `none` when the fuel does not suffice for the crawl. -/
def main (env : Env) (input : Input) (fetch : Fetch) (fuel : Nat) : Option RunResult :=
  match env.ensureAccessToSerpProxy with
  | .error e => some { outcome := .error e, events := [], store := ⟨[], []⟩ }
  | .ok () =>
    let initialRequests := env.getInitialRequests input
    if initialRequests.length = 0 then
      some { outcome := .error (.error "The input must contain at least one search query or URL.")
             events := []
             store := ⟨[], []⟩ }
    else
      match crawlerRun env input fetch fuel 0 initialRequests ⟨[], []⟩ [] with
      | none => none
      | some st =>
        some { outcome := .ok ()
               events := [.openRequestList "initial-requests" initialRequests,
                          .openRequestQueue, .openDataset, .crawlerRun]
               store := st }

/-! ## Sample collaborators, for the concrete runs -/

/-- A search-URL pattern that accepts the URLs starting with
`http://www.google.com/search?`; the third group is the domain. -/
def sampleRegex : RegExp where
  exec := fun u =>
    if u.data.take 29 = "http://www.google.com/search?".data then
      some [some u, some "http", some "www.", some "Google.COM"]
    else none

/-- An extractor module that finds nothing. -/
def sampleExtractors : Extractors where
  extractTotalResults := fun _ => "null"
  extractRelatedQueries := fun _ _ => "[]"
  extractPaidResults := fun _ => "[]"
  extractPaidProducts := fun _ => "[]"
  extractOgranicResults := fun _ => "[]"

/-- Sample collaborators: a two-entry country table, a hook that fails on the string
`"throw"`, requests that keep the URL and page index they are built from. -/
def sampleEnv : Env where
  GOOGLE_DEFAULT_RESULTS_PER_PAGE := 10
  DEFAULT_GOOGLE_SEARCH_DOMAIN_COUNTRY_CODE := "US"
  GOOGLE_SEARCH_DOMAIN_TO_COUNTRY_CODE := [("google.com", "US"), ("google.cz", "CZ")]
  GOOGLE_SEARCH_URL_REGEX := sampleRegex
  extractorsDesktop := sampleExtractors
  extractorsMobile := sampleExtractors
  getInitialRequests := fun input =>
    if input.queries = "" then []
    else [⟨"http://www.google.com/search?q=" ++ input.queries, ⟨0, none, none⟩⟩]
  executeCustomDataFunction := fun f _ _ _ _ _ =>
    if f = "throw" then .error (.error "custom data function failed") else .ok "[]"
  createSerpRequest := fun url page => ⟨url, ⟨page, none, none⟩⟩
  createDebugInfo := fun request _ => request.url
  ensureAccessToSerpProxy := .ok ()
  urlParse := fun _ => ⟨some "www.google.com", ⟨some "cats", none, none, none⟩⟩

/-- A sample input: desktop results, no hook, no raw page, the limit as given. -/
def sampleInput (maxPagesPerQuery : Option Int) : Input where
  queries := "cats"
  maxConcurrency := none
  maxPagesPerQuery := maxPagesPerQuery
  customDataFunction := none
  mobileResults := false
  saveHtml := false

/-- A sample first unit of work. -/
def sampleRequest (page : Int) : Request :=
  ⟨"http://www.google.com/search?q=cats", ⟨page, some 0, none⟩⟩

/-- A sample page: the handle knows `#pnnext` with the given `href` only. -/
def sampleDollar (href : Option String) : Cheerio where
  attr := fun selector name => if selector = "#pnnext" ∧ name = "href" then href else none

/-- A transport whose every page has a next-page link. -/
def sampleFetch : Fetch :=
  fun _ => some (⟨200⟩, "<html></html>", sampleDollar (some "/search?q=cats&start=10"))

end GoogleSearchScraper

namespace GoogleSearchScraper

/-! ## The page handler -/

/-- The handler's run when the URL matches the pattern and the hook, if any, does not fail:
it completes, pushes one success item and adds the follow-on request or nothing. -/
theorem handlePageFunction_of_ok (env : Env) (input : Input) (now : Nat) (request : Request)
    (response : Response) (html : String) (dollar : Cheerio) (st : Store)
    (domain : String) (custom : Option Json)
    (hd : searchDomain env request.url = .ok domain)
    (hc : customData env input dollar (setFinishedAt request now) response html = .ok custom) :
    ∃ data : PageData,
      handlePageFunction env input now request response html dollar st =
        (.ok (),
          { dataset := st.dataset ++ [.page data]
            queue :=
              if truthy (dollar.attr "#pnnext" "href") ∧
                  belowLimit request.userData.page input.maxPagesPerQuery then
                st.queue ++
                  [env.createSerpRequest
                    ("http://" ++ template (env.urlParse request.url).host ++
                      template (dollar.attr "#pnnext" "href"))
                    (request.userData.page + 1)]
              else st.queue }) ∧
      data.error = false ∧
      data.debug = env.createDebugInfo (setFinishedAt request now) (some response) ∧
      data.searchQuery.page = request.userData.page + 1 ∧
      data.searchQuery.domain = domain ∧
      data.searchQuery.countryCode = countryCode env domain ∧
      data.hasNextPage = truthy (dollar.attr "#pnnext" "href") ∧
      data.customData = custom ∧
      data.html = (if input.saveHtml then some html else none) := by
  have hurl : (setFinishedAt request now).url = request.url := rfl
  have hpage : (setFinishedAt request now).userData.page = request.userData.page := rfl
  unfold handlePageFunction
  simp only [hurl, hpage, hd, hc]
  refine ⟨_, rfl, ?_⟩
  by_cases hs : input.saveHtml = true <;>
    by_cases ht : truthy (dollar.attr "#pnnext" "href") = true <;> simp [hs, ht]

/-- A URL the pattern rejects makes the handler throw before any effect. -/
theorem handlePageFunction_of_domain_error (env : Env) (input : Input) (now : Nat)
    (request : Request) (response : Response) (html : String) (dollar : Cheerio) (st : Store)
    (e : JsError) (hd : searchDomain env request.url = .error e) :
    handlePageFunction env input now request response html dollar st = (.error e, st) := by
  have hurl : (setFinishedAt request now).url = request.url := rfl
  unfold handlePageFunction
  simp only [hurl, hd]

/-- A failing hook makes the handler throw before any effect. -/
theorem handlePageFunction_of_hook_error (env : Env) (input : Input) (now : Nat)
    (request : Request) (response : Response) (html : String) (dollar : Cheerio) (st : Store)
    (domain : String) (e : JsError)
    (hd : searchDomain env request.url = .ok domain)
    (hc : customData env input dollar (setFinishedAt request now) response html = .error e) :
    handlePageFunction env input now request response html dollar st = (.error e, st) := by
  have hurl : (setFinishedAt request now).url = request.url := rfl
  unfold handlePageFunction
  simp only [hurl, hd, hc]

/-- With the limit `0` or unset the condition of line 90 is false at every page index. -/
theorem belowLimit_of_falsy (page : Int) (limit : Option Int)
    (h : limit = none ∨ limit = some 0) : belowLimit page limit = false := by
  rcases h with h | h <;> subst h <;> simp [belowLimit]

/-- With a limit other than `0` the condition of line 90 is `page + 1 < limit`. -/
theorem belowLimit_some (page L : Int) (hL : L ≠ 0) :
    belowLimit page (some L) = true ↔ page + 1 < L := by
  simp only [belowLimit, decide_eq_true_eq]
  constructor
  · rintro ⟨h, _⟩
    omega
  · intro h
    exact ⟨by omega, hL⟩

/-- A next-page link is truthy exactly when it is a non-empty string. -/
theorem truthy_iff (v : Option String) : truthy v = true ↔ ∃ n, v = some n ∧ n ≠ "" := by
  cases v with
  | none => simp [truthy]
  | some s => simp [truthy]

/-- The state after a handler invocation that throws is the state before it. -/
theorem handlePageFunction_error_state (env : Env) (input : Input) (now : Nat)
    (request : Request) (response : Response) (html : String) (dollar : Cheerio) (st : Store)
    (e : JsError)
    (h : (handlePageFunction env input now request response html dollar st).1 = .error e) :
    (handlePageFunction env input now request response html dollar st).2 = st := by
  cases hd : searchDomain env request.url with
  | error e1 => rw [handlePageFunction_of_domain_error env input now request response html dollar st e1 hd]
  | ok domain =>
    cases hc : customData env input dollar (setFinishedAt request now) response html with
    | error e1 =>
      rw [handlePageFunction_of_hook_error env input now request response html dollar st domain e1 hd hc]
    | ok custom =>
      obtain ⟨data, hrun, -⟩ :=
        handlePageFunction_of_ok env input now request response html dollar st domain custom hd hc
      rw [hrun] at h
      cases h

/-- C1 at a concrete page.  The limit is `0`, respectively unset, the page index is `0` and
the page has the next-page link `/search?q=cats&start=10`: the handler completes, pushes its
one item, and the request queue stays empty, so no unit at page index `1` is enqueued. -/
theorem C1_unlimited_counterexample :
    truthy ((sampleDollar (some "/search?q=cats&start=10")).attr "#pnnext" "href") = true ∧
    handlePageFunction sampleEnv (sampleInput (some 0)) 1 (sampleRequest 0) ⟨200⟩ ""
        (sampleDollar (some "/search?q=cats&start=10")) ⟨[], []⟩ =
      (.ok (),
        ⟨[.page
            { debug := "http://www.google.com/search?q=cats"
              error := false
              searchQuery := ⟨some "cats", "DESKTOP", 1, "SEARCH", "google.com", "US", none,
                none, .fromConst 10⟩
              url := "http://www.google.com/search?q=cats"
              hasNextPage := true
              resultsTotal := "null"
              relatedQueries := "[]"
              paidResults := "[]"
              paidProducts := "[]"
              organicResults := "[]"
              customData := none
              html := none }],
          []⟩) ∧
    (handlePageFunction sampleEnv (sampleInput none) 1 (sampleRequest 0) ⟨200⟩ ""
        (sampleDollar (some "/search?q=cats&start=10")) ⟨[], []⟩).1 = .ok () ∧
    (handlePageFunction sampleEnv (sampleInput none) 1 (sampleRequest 0) ⟨200⟩ ""
        (sampleDollar (some "/search?q=cats&start=10")) ⟨[], []⟩).2.queue = [] :=
  ⟨rfl, rfl, rfl, rfl⟩

/-- C1, as the code has it: when `maxPagesPerQuery` is `0` or unset the page handler adds
nothing to the request queue, at every page index and whether or not the page has a
next-page link. -/
theorem C1_no_follow_on_without_limit (env : Env) (input : Input) (now : Nat)
    (request : Request) (response : Response) (html : String) (dollar : Cheerio) (st : Store)
    (hlimit : input.maxPagesPerQuery = none ∨ input.maxPagesPerQuery = some 0) :
    (handlePageFunction env input now request response html dollar st).2.queue = st.queue := by
  cases hd : searchDomain env request.url with
  | error e => rw [handlePageFunction_of_domain_error env input now request response html dollar st e hd]
  | ok domain =>
    cases hc : customData env input dollar (setFinishedAt request now) response html with
    | error e =>
      rw [handlePageFunction_of_hook_error env input now request response html dollar st domain e hd hc]
    | ok custom =>
      obtain ⟨data, hrun, -⟩ :=
        handlePageFunction_of_ok env input now request response html dollar st domain custom hd hc
      rw [hrun]
      simp [belowLimit_of_falsy request.userData.page input.maxPagesPerQuery hlimit]

/-- C1, as the code has it, on the sample page at page index `7` with the limit unset. -/
theorem C1_no_follow_on_without_limit_witness :
    (handlePageFunction sampleEnv (sampleInput none) 1 (sampleRequest 7) ⟨200⟩ ""
        (sampleDollar (some "/search?q=cats&start=80")) ⟨[], []⟩).2.queue = [] :=
  C1_no_follow_on_without_limit sampleEnv (sampleInput none) 1 (sampleRequest 7) ⟨200⟩ ""
    (sampleDollar (some "/search?q=cats&start=80")) ⟨[], []⟩ (Or.inl rfl)

/-- C2: with a positive limit `L`, on a page of host `h` at page index `p`, a handler
invocation that reaches the pagination step (the URL matches the pattern, the hook if any
does not fail) completes, and it adds a request to the queue if and only if the page has a
next-page link `n` (a non-empty `href` of `#pnnext`) and `p + 1 < L`; the request it adds is
`createSerpRequest ("http://" ++ h ++ n) (p + 1)`, and otherwise the queue is unchanged. -/
theorem C2_follow_on_iff_below_limit (env : Env) (input : Input) (now : Nat)
    (request : Request) (response : Response) (html : String) (dollar : Cheerio) (st : Store)
    (L : Int) (h : String) (domain : String) (custom : Option Json)
    (hL : input.maxPagesPerQuery = some L) (hpos : 0 < L)
    (hhost : (env.urlParse request.url).host = some h)
    (hd : searchDomain env request.url = .ok domain)
    (hc : customData env input dollar (setFinishedAt request now) response html = .ok custom) :
    (handlePageFunction env input now request response html dollar st).1 = .ok () ∧
    ((∃ r, (handlePageFunction env input now request response html dollar st).2.queue =
          st.queue ++ [r]) ↔
      ∃ n, dollar.attr "#pnnext" "href" = some n ∧ n ≠ "" ∧ request.userData.page + 1 < L) ∧
    (∀ n, dollar.attr "#pnnext" "href" = some n → n ≠ "" → request.userData.page + 1 < L →
      (handlePageFunction env input now request response html dollar st).2.queue =
        st.queue ++ [env.createSerpRequest ("http://" ++ h ++ n) (request.userData.page + 1)]) ∧
    ((¬ ∃ n, dollar.attr "#pnnext" "href" = some n ∧ n ≠ "" ∧ request.userData.page + 1 < L) →
      (handlePageFunction env input now request response html dollar st).2.queue = st.queue) := by
  obtain ⟨data, hrun, -⟩ :=
    handlePageFunction_of_ok env input now request response html dollar st domain custom hd hc
  have hlim := belowLimit_some request.userData.page L (by omega)
  have hcond : (truthy (dollar.attr "#pnnext" "href") = true ∧
      belowLimit request.userData.page input.maxPagesPerQuery = true) ↔
      ∃ n, dollar.attr "#pnnext" "href" = some n ∧ n ≠ "" ∧ request.userData.page + 1 < L := by
    rw [hL, hlim, truthy_iff]
    constructor
    · rintro ⟨⟨n, h1, h2⟩, h3⟩
      exact ⟨n, h1, h2, h3⟩
    · rintro ⟨n, h1, h2, h3⟩
      exact ⟨⟨n, h1, h2⟩, h3⟩
  rw [hrun]
  refine ⟨rfl, ?_, ?_, ?_⟩
  · constructor
    · rintro ⟨r, hr⟩
      by_contra hno
      rw [← hcond] at hno
      simp only [if_neg hno] at hr
      have := congrArg List.length hr
      simp at this
    · intro hyes
      rw [← hcond] at hyes
      exact ⟨_, if_pos hyes⟩
  · intro n h1 h2 h3
    have hyes := hcond.mpr ⟨n, h1, h2, h3⟩
    simp only [if_pos hyes]
    simp only [hhost, h1, template]
  · intro hno
    rw [← hcond] at hno
    simp only [if_neg hno]

/-- C2 on the sample page: limit `3`, page index `1`, host `www.google.com`. -/
theorem C2_follow_on_iff_below_limit_witness :
    (handlePageFunction sampleEnv (sampleInput (some 3)) 1 (sampleRequest 1) ⟨200⟩ ""
        (sampleDollar (some "/search?q=cats&start=20")) ⟨[], []⟩).2.queue =
      [] ++ [sampleEnv.createSerpRequest
        ("http://" ++ "www.google.com" ++ "/search?q=cats&start=20") ((sampleRequest 1).userData.page + 1)] :=
  (C2_follow_on_iff_below_limit sampleEnv (sampleInput (some 3)) 1 (sampleRequest 1) ⟨200⟩ ""
    (sampleDollar (some "/search?q=cats&start=20")) ⟨[], []⟩ 3 "www.google.com" "google.com" none
    rfl (by decide) rfl rfl rfl).2.2.1 "/search?q=cats&start=20" rfl
    (by decide) (by decide)

/-- C3: the item pushed by a handler invocation that completes (the URL matches the pattern,
the hook if any does not fail) has `hasNextPage` true if and only if the page has a
next-page link (a non-empty `href` of `#pnnext`), at every page index and for every
`maxPagesPerQuery`.  With the link present and the limit `L` reached (`p + 1 < L` false, as
for page index `2` and limit `3`) nothing is enqueued and `hasNextPage` is true; without a
link nothing is enqueued and `hasNextPage` is false. -/
theorem C3_hasNextPage_iff_link (env : Env) (input : Input) (now : Nat)
    (request : Request) (response : Response) (html : String) (dollar : Cheerio) (st : Store)
    (domain : String) (custom : Option Json)
    (hd : searchDomain env request.url = .ok domain)
    (hc : customData env input dollar (setFinishedAt request now) response html = .ok custom) :
    ∃ data : PageData,
      (handlePageFunction env input now request response html dollar st).1 = .ok () ∧
      (handlePageFunction env input now request response html dollar st).2.dataset =
        st.dataset ++ [.page data] ∧
      (data.hasNextPage = true ↔ ∃ n, dollar.attr "#pnnext" "href" = some n ∧ n ≠ "") ∧
      ((∃ n, dollar.attr "#pnnext" "href" = some n ∧ n ≠ "") →
        ∀ L : Int, input.maxPagesPerQuery = some L → ¬ request.userData.page + 1 < L →
          (handlePageFunction env input now request response html dollar st).2.queue = st.queue ∧
          data.hasNextPage = true) ∧
      ((¬ ∃ n, dollar.attr "#pnnext" "href" = some n ∧ n ≠ "") →
        (handlePageFunction env input now request response html dollar st).2.queue = st.queue ∧
        data.hasNextPage = false) := by
  obtain ⟨data, hrun, -, -, -, -, -, hnext, -⟩ :=
    handlePageFunction_of_ok env input now request response html dollar st domain custom hd hc
  refine ⟨data, ?_, ?_, ?_, ?_, ?_⟩
  · rw [hrun]
  · rw [hrun]
  · rw [hnext, truthy_iff]
  · intro hlink L hL hreached
    rw [hrun]
    refine ⟨?_, by rw [hnext, truthy_iff]; exact hlink⟩
    have hb : belowLimit request.userData.page input.maxPagesPerQuery = false := by
      rw [hL]
      by_cases h0 : L = 0
      · exact belowLimit_of_falsy _ _ (Or.inr (by rw [h0]))
      · have := belowLimit_some request.userData.page L h0
        cases hbl : belowLimit request.userData.page (some L) with
        | false => rfl
        | true => exact absurd (this.mp hbl) hreached
    simp [hb]
  · intro hno
    rw [hrun]
    have ht : truthy (dollar.attr "#pnnext" "href") = false := by
      cases htr : truthy (dollar.attr "#pnnext" "href") with
      | false => rfl
      | true => exact absurd ((truthy_iff _).mp htr) hno
    refine ⟨by simp [ht], by rw [hnext, ht]⟩

/-- C3 on the sample page: page index `2`, limit `3`, a next-page link present. -/
theorem C3_hasNextPage_iff_link_witness :
    ∃ data : PageData,
      (handlePageFunction sampleEnv (sampleInput (some 3)) 1 (sampleRequest 2) ⟨200⟩ ""
        (sampleDollar (some "/search?q=cats&start=30")) ⟨[], []⟩).2.dataset = [] ++ [.page data] ∧
      (handlePageFunction sampleEnv (sampleInput (some 3)) 1 (sampleRequest 2) ⟨200⟩ ""
        (sampleDollar (some "/search?q=cats&start=30")) ⟨[], []⟩).2.queue = [] ∧
      data.hasNextPage = true := by
  obtain ⟨data, -, hds, -, hreached, -⟩ :=
    C3_hasNextPage_iff_link sampleEnv (sampleInput (some 3)) 1 (sampleRequest 2) ⟨200⟩ ""
      (sampleDollar (some "/search?q=cats&start=30")) ⟨[], []⟩ "google.com" none rfl rfl
  have h := hreached ⟨"/search?q=cats&start=30", rfl, by decide⟩ 3 rfl (by decide)
  exact ⟨data, hds, h.1, h.2⟩

/-- C5 at a concrete request.  No hook is configured and the URL
`http://www.google.com/preferences` does not match the pattern: `matches` is `null`, line 55
throws a `TypeError`, and the handler ends without having pushed an item. -/
theorem C5_one_record_counterexample :
    customData sampleEnv (sampleInput (some 2)) (sampleDollar none)
        (setFinishedAt ⟨"http://www.google.com/preferences", ⟨0, some 0, none⟩⟩ 1) ⟨200⟩ "" =
      .ok none ∧
    handlePageFunction sampleEnv (sampleInput (some 2)) 1
        ⟨"http://www.google.com/preferences", ⟨0, some 0, none⟩⟩ ⟨200⟩ "" (sampleDollar none)
        ⟨[], []⟩ =
      (.error .typeError, ⟨[], []⟩) :=
  ⟨rfl, rfl⟩

/-- C5, as the code has it: a handler invocation on a request whose URL matches
`GOOGLE_SEARCH_URL_REGEX` and in which the hook, if any, does not fail completes, pushes
exactly one item to the dataset and adds at most one request to the queue, whatever the
next-page link, the page index, the limit and the `saveHtml` flag are. -/
theorem C5_one_record_at_most_one_request (env : Env) (input : Input) (now : Nat)
    (request : Request) (response : Response) (html : String) (dollar : Cheerio) (st : Store)
    (domain : String) (custom : Option Json)
    (hd : searchDomain env request.url = .ok domain)
    (hc : customData env input dollar (setFinishedAt request now) response html = .ok custom) :
    (handlePageFunction env input now request response html dollar st).1 = .ok () ∧
    (∃ item, (handlePageFunction env input now request response html dollar st).2.dataset =
      st.dataset ++ [item]) ∧
    ((handlePageFunction env input now request response html dollar st).2.queue = st.queue ∨
      ∃ r, (handlePageFunction env input now request response html dollar st).2.queue =
        st.queue ++ [r]) := by
  obtain ⟨data, hrun, -⟩ :=
    handlePageFunction_of_ok env input now request response html dollar st domain custom hd hc
  rw [hrun]
  refine ⟨rfl, ⟨_, rfl⟩, ?_⟩
  by_cases hcond : truthy (dollar.attr "#pnnext" "href") = true ∧
      belowLimit request.userData.page input.maxPagesPerQuery = true
  · exact Or.inr ⟨_, if_pos hcond⟩
  · exact Or.inl (if_neg hcond)

/-- C5, as the code has it, on the sample page with the raw page kept and a hook that
does not fail. -/
theorem C5_one_record_at_most_one_request_witness :
    (handlePageFunction sampleEnv
        { sampleInput (some 2) with saveHtml := true, customDataFunction := some "f" } 1
        (sampleRequest 0) ⟨200⟩ "<html></html>" (sampleDollar (some "/search?q=cats&start=10"))
        ⟨[], []⟩).1 = .ok () :=
  (C5_one_record_at_most_one_request sampleEnv
    { sampleInput (some 2) with saveHtml := true, customDataFunction := some "f" } 1
    (sampleRequest 0) ⟨200⟩ "<html></html>" (sampleDollar (some "/search?q=cats&start=10"))
    ⟨[], []⟩ "google.com" (some "[]") rfl rfl).1

/-- C6: when a hook is configured (`customDataFunction` is a non-empty string) and its call
at lines 79-81 fails with `e`, the handler invocation fails with `e` and leaves the dataset
and the queue as they were.  When no hook is configured the handler behaves the same
whatever `executeCustomDataFunction` is, and on a URL that matches the pattern it completes
and the item it pushes has `customData` null. -/
theorem C6_hook_failure_is_page_failure (env : Env) (input : Input) (now : Nat)
    (request : Request) (response : Response) (html : String) (dollar : Cheerio) (st : Store) :
    (∀ (f : String) (e : JsError) (domain : String),
      input.customDataFunction = some f → f ≠ "" →
      searchDomain env request.url = .ok domain →
      env.executeCustomDataFunction f input dollar (setFinishedAt request now) response html =
        .error e →
      handlePageFunction env input now request response html dollar st = (.error e, st)) ∧
    (truthy input.customDataFunction = false →
      (∀ hook, handlePageFunction { env with executeCustomDataFunction := hook } input now
          request response html dollar st =
        handlePageFunction env input now request response html dollar st) ∧
      (∀ domain, searchDomain env request.url = .ok domain →
        ∃ data : PageData,
          (handlePageFunction env input now request response html dollar st).1 = .ok () ∧
          (handlePageFunction env input now request response html dollar st).2.dataset =
            st.dataset ++ [.page data] ∧
          data.customData = none)) := by
  refine ⟨?_, ?_⟩
  · intro f e domain hf hne hd hhook
    apply handlePageFunction_of_hook_error env input now request response html dollar st domain e hd
    simp [customData, hf, truthy, hne, hhook]
  · intro hnone
    refine ⟨?_, ?_⟩
    · intro hook
      unfold handlePageFunction
      simp only [customData, hnone, searchDomain, countryCode]
      rfl
    · intro domain hd
      have hc : customData env input dollar (setFinishedAt request now) response html =
          .ok none := by
        simp [customData, hnone]
      obtain ⟨data, hrun, -, -, -, -, -, -, hcustom, -⟩ :=
        handlePageFunction_of_ok env input now request response html dollar st domain none hd hc
      exact ⟨data, by rw [hrun], by rw [hrun], hcustom⟩

/-- C6 on the sample page with the hook `"throw"`, which the sample collaborators fail. -/
theorem C6_hook_failure_is_page_failure_witness :
    handlePageFunction sampleEnv { sampleInput (some 2) with customDataFunction := some "throw" } 1
        (sampleRequest 0) ⟨200⟩ "" (sampleDollar (some "/search?q=cats&start=10")) ⟨[], []⟩ =
      (.error (.error "custom data function failed"), ⟨[], []⟩) :=
  (C6_hook_failure_is_page_failure sampleEnv
    { sampleInput (some 2) with customDataFunction := some "throw" } 1
    (sampleRequest 0) ⟨200⟩ "" (sampleDollar (some "/search?q=cats&start=10")) ⟨[], []⟩).1
    "throw" (.error "custom data function failed") "google.com" rfl (by decide) rfl rfl

/-- C7: the failure handler pushes exactly one item, with `'#error'` true and `'#debug'` the
value of `createDebugInfo(request)`, and leaves the request queue as it was. -/
theorem C7_failure_handler_one_error_record (env : Env) (request : Request) (st : Store) :
    handleFailedRequestFunction env request st =
      { dataset := st.dataset ++ [.failed { debug := env.createDebugInfo request none, error := true }]
        queue := st.queue } ∧
    (DatasetItem.failed { debug := env.createDebugInfo request none, error := true }).error = true :=
  ⟨rfl, rfl⟩

/-- A code that a dictionary lookup returns stands in one of its entries. -/
theorem exists_mem_of_lookup (table : List (String × String)) (key code : String)
    (h : table.lookup key = some code) : ∃ entry ∈ table, entry.2 = code := by
  induction table with
  | nil => simp at h
  | cons entry rest ih =>
    obtain ⟨k, v⟩ := entry
    rw [List.lookup_cons] at h
    cases hk : (key == k) with
    | true =>
      rw [hk] at h
      refine ⟨(k, v), List.mem_cons_self _ _, ?_⟩
      simpa using h
    | false =>
      rw [hk] at h
      obtain ⟨entry, hmem, hcode⟩ := ih h
      exact ⟨entry, List.mem_cons_of_mem _ hmem, hcode⟩

/-- C9: for every request URL (that matches the pattern, with third group `group`), the item
pushed by a handler invocation that completes has as `searchQuery.domain` the lower-cased
group and as `searchQuery.countryCode` the code `GOOGLE_SEARCH_DOMAIN_TO_COUNTRY_CODE` has
for that domain when it is a key of the table, and
`DEFAULT_GOOGLE_SEARCH_DOMAIN_COUNTRY_CODE` when it is not.  The table is a parameter, its
codes non-empty strings. -/
theorem C9_country_code_of_domain (env : Env) (input : Input) (now : Nat)
    (request : Request) (response : Response) (html : String) (dollar : Cheerio) (st : Store)
    (matched : List (Option String)) (group : String) (custom : Option Json)
    (hm : env.GOOGLE_SEARCH_URL_REGEX.exec request.url = some matched)
    (hg : matched.get? 3 = some (some group))
    (hc : customData env input dollar (setFinishedAt request now) response html = .ok custom)
    (htable : ∀ entry ∈ env.GOOGLE_SEARCH_DOMAIN_TO_COUNTRY_CODE, entry.2 ≠ "") :
    ∃ data : PageData,
      (handlePageFunction env input now request response html dollar st).1 = .ok () ∧
      (handlePageFunction env input now request response html dollar st).2.dataset =
        st.dataset ++ [.page data] ∧
      data.searchQuery.domain = toLowerCase group ∧
      (∀ code, env.GOOGLE_SEARCH_DOMAIN_TO_COUNTRY_CODE.lookup (toLowerCase group) = some code →
        data.searchQuery.countryCode = code) ∧
      (env.GOOGLE_SEARCH_DOMAIN_TO_COUNTRY_CODE.lookup (toLowerCase group) = none →
        data.searchQuery.countryCode = env.DEFAULT_GOOGLE_SEARCH_DOMAIN_COUNTRY_CODE) := by
  have hd : searchDomain env request.url = .ok (toLowerCase group) := by
    simp only [searchDomain, hm, hg]
  obtain ⟨data, hrun, -, -, -, hdomain, hcode, -⟩ :=
    handlePageFunction_of_ok env input now request response html dollar st _ custom hd hc
  refine ⟨data, by rw [hrun], by rw [hrun], hdomain, ?_, ?_⟩
  · intro code hlookup
    obtain ⟨entry, hmem, hentry⟩ := exists_mem_of_lookup _ _ _ hlookup
    have hne : code ≠ "" := hentry ▸ htable entry hmem
    rw [hcode]
    simp [countryCode, hlookup, hne]
  · intro hlookup
    rw [hcode]
    simp [countryCode, hlookup]

/-- C9 on the sample page: the group `Google.COM` gives the domain `google.com`, which the
sample table maps to `US`. -/
theorem C9_country_code_of_domain_witness :
    ∃ data : PageData,
      (handlePageFunction sampleEnv (sampleInput (some 2)) 1 (sampleRequest 0) ⟨200⟩ ""
        (sampleDollar none) ⟨[], []⟩).2.dataset = [] ++ [.page data] ∧
      data.searchQuery.domain = "google.com" ∧ data.searchQuery.countryCode = "US" := by
  obtain ⟨data, -, hds, hdomain, hkey, -⟩ :=
    C9_country_code_of_domain sampleEnv (sampleInput (some 2)) 1 (sampleRequest 0) ⟨200⟩ ""
      (sampleDollar none) ⟨[], []⟩
      [some "http://www.google.com/search?q=cats", some "http", some "www.", some "Google.COM"]
      "Google.COM" none rfl rfl rfl (by decide)
  exact ⟨data, hds, hdomain, hkey "US" rfl⟩

/-- C10: for a request of page index `p`, the item pushed by a handler invocation that
completes (the URL matches the pattern, the hook if any does not fail) is a success item with
`searchQuery.page = p + 1`. -/
theorem C10_page_number_is_index_plus_one (env : Env) (input : Input) (now : Nat)
    (request : Request) (response : Response) (html : String) (dollar : Cheerio) (st : Store)
    (domain : String) (custom : Option Json)
    (hd : searchDomain env request.url = .ok domain)
    (hc : customData env input dollar (setFinishedAt request now) response html = .ok custom) :
    ∃ data : PageData,
      (handlePageFunction env input now request response html dollar st).1 = .ok () ∧
      (handlePageFunction env input now request response html dollar st).2.dataset =
        st.dataset ++ [.page data] ∧
      data.error = false ∧
      data.searchQuery.page = request.userData.page + 1 := by
  obtain ⟨data, hrun, herror, -, hpage, -⟩ :=
    handlePageFunction_of_ok env input now request response html dollar st domain custom hd hc
  exact ⟨data, by rw [hrun], by rw [hrun], herror, hpage⟩

/-- C10 on the sample page at page index `4`: the item carries page number `5`. -/
theorem C10_page_number_is_index_plus_one_witness :
    ∃ data : PageData,
      (handlePageFunction sampleEnv (sampleInput (some 2)) 1 (sampleRequest 4) ⟨200⟩ ""
        (sampleDollar none) ⟨[], []⟩).2.dataset = [] ++ [.page data] ∧
      data.searchQuery.page = 5 := by
  obtain ⟨data, -, hds, -, hpage⟩ :=
    C10_page_number_is_index_plus_one sampleEnv (sampleInput (some 2)) 1 (sampleRequest 4) ⟨200⟩ ""
      (sampleDollar none) ⟨[], []⟩ "google.com" none rfl rfl
  exact ⟨data, hds, hpage⟩

/-! ## The run -/

/-- C8: in a run that passed the proxy check of line 21, so that line 25 computes the initial
requests, the run fails with the error `The input must contain at least one search query or
URL.` if and only if `getInitialRequests` returned an empty sequence; it then ends with no
request list, request queue or dataset opened, the crawler not run, and nothing in the
dataset or the queue. -/
theorem C8_empty_input_fails_before_work (env : Env) (input : Input) (fetch : Fetch)
    (fuel : Nat) (hproxy : env.ensureAccessToSerpProxy = .ok ()) :
    ((∃ r, main env input fetch fuel = some r ∧
        r.outcome = .error (.error "The input must contain at least one search query or URL.")) ↔
      env.getInitialRequests input = []) ∧
    (env.getInitialRequests input = [] →
      main env input fetch fuel =
        some { outcome := .error (.error "The input must contain at least one search query or URL.")
               events := []
               store := ⟨[], []⟩ }) := by
  have hfail : env.getInitialRequests input = [] →
      main env input fetch fuel =
        some { outcome := .error (.error "The input must contain at least one search query or URL.")
               events := []
               store := ⟨[], []⟩ } := by
    intro hempty
    simp [main, hproxy, hempty]
  refine ⟨⟨?_, ?_⟩, hfail⟩
  · rintro ⟨r, hr, hout⟩
    by_contra hne
    have hlen : ¬ (env.getInitialRequests input).length = 0 := by
      simpa [List.length_eq_zero] using hne
    simp only [main, hproxy, hlen, if_false] at hr
    cases hrun : crawlerRun env input fetch fuel 0 (env.getInitialRequests input) ⟨[], []⟩ [] with
    | none => simp [hrun] at hr
    | some st1 =>
      simp only [hrun, Option.some.injEq] at hr
      rw [← hr] at hout
      cases hout
  · intro hempty
    exact ⟨_, hfail hempty, rfl⟩

/-- C8 on the sample collaborators with no query in the input. -/
theorem C8_empty_input_fails_before_work_witness :
    main sampleEnv { sampleInput (some 2) with queries := "" } sampleFetch 0 =
      some { outcome := .error (.error "The input must contain at least one search query or URL.")
             events := []
             store := ⟨[], []⟩ } :=
  (C8_empty_input_fails_before_work sampleEnv { sampleInput (some 2) with queries := "" }
    sampleFetch 0 rfl).2 rfl

/-- With nothing in the request list and nothing pending the run has ended. -/
theorem crawlerRun_finished (env : Env) (input : Input) (fetch : Fetch) (fuel clock : Nat)
    (seen : List String) (dataset : List DatasetItem) :
    crawlerRun env input fetch fuel clock [] ⟨[], seen⟩ dataset = some ⟨dataset, []⟩ := by
  cases fuel <;> simp [crawlerRun, RequestQueue.fetchNextRequest]

/-- One unit of the crawl when its fetch succeeds, the page has a next-page link, the URL
matches the pattern and the hook does not fail: one success item is pushed, and the follow-on
request is handed to the queue exactly when the limit allows it. -/
theorem processRequest_of_ok (env : Env) (input : Input) (fetch : Fetch) (clock : Nat)
    (request : Request) (queue : RequestQueue) (dataset : List DatasetItem)
    (response : Response) (html : String) (dollar : Cheerio) (n domain : String)
    (hf : fetch request.url = some (response, html, dollar))
    (hlink : dollar.attr "#pnnext" "href" = some n) (hne : n ≠ "")
    (hd : searchDomain env request.url = .ok domain)
    (hc : ∀ request1 : Request, request1.url = request.url →
      ∃ custom, customData env input dollar request1 response html = .ok custom) :
    ∃ data : PageData,
      processRequest env input fetch clock request queue dataset =
        (dataset ++ [.page data],
          if belowLimit request.userData.page input.maxPagesPerQuery then
            queue.addRequest
              (env.createSerpRequest ("http://" ++ template (env.urlParse request.url).host ++ n)
                (request.userData.page + 1)) false
          else queue) ∧
      data.error = false ∧
      data.searchQuery.page = request.userData.page + 1 ∧
      data.hasNextPage = true := by
  have hurl : (setStartedAt request clock).url = request.url := rfl
  have hp : (setStartedAt request clock).userData.page = request.userData.page := rfl
  obtain ⟨custom, hc1⟩ := hc (setFinishedAt (setStartedAt request clock) (clock + 1)) rfl
  obtain ⟨data, hrun, herror, -, hpage, -, -, hnext, -⟩ :=
    handlePageFunction_of_ok env input (clock + 1) (setStartedAt request clock) response html
      dollar ⟨dataset, []⟩ domain custom (by rw [hurl]; exact hd) hc1
  have ht : truthy (dollar.attr "#pnnext" "href") = true := (truthy_iff _).mpr ⟨n, hlink, hne⟩
  refine ⟨data, ?_, herror, by rw [hpage, hp], by rw [hnext, ht]⟩
  unfold processRequest
  simp only [hurl, hf, hrun, ht, hp, true_and]
  simp only [hlink, template]
  by_cases hb : belowLimit request.userData.page input.maxPagesPerQuery = true
  · simp [hb]
  · simp [hb]

/-- The crawl of a chain of pages with pairwise distinct URLs `urls`: with the request for
`urls[k]`, of page index `k`, pending alone, every URL seen so far among `urls[0..k]`, and
`n = L - k ≥ 1` pages to go, the run ends after `n` more items, one per page index up to
`L - 1`. -/
theorem crawlerRun_chain (env : Env) (input : Input) (fetch : Fetch) (L : Nat)
    (urls : List String)
    (hL : input.maxPagesPerQuery = some (L : Int)) (hpos : 1 ≤ L)
    (hlen : urls.length = L) (hnodup : urls.Nodup)
    (hpages : ∀ k u, urls.get? k = some u →
      ∃ response html dollar n domain,
        fetch u = some (response, html, dollar) ∧
        dollar.attr "#pnnext" "href" = some n ∧ n ≠ "" ∧
        searchDomain env u = .ok domain ∧
        (∀ request : Request, request.url = u →
          ∃ custom, customData env input dollar request response html = .ok custom) ∧
        (∀ u1, urls.get? (k + 1) = some u1 → ∀ page,
          (env.createSerpRequest ("http://" ++ template (env.urlParse u).host ++ n) page).url = u1))
    (hserp : ∀ url page, (env.createSerpRequest url page).userData.page = page) :
    ∀ (n k : Nat) (request : Request) (clock : Nat) (seen : List String)
      (dataset : List DatasetItem) (fuel : Nat),
      1 ≤ n → k + n = L → urls.get? k = some request.url → request.userData.page = (k : Int) →
      (∀ u ∈ seen, ∃ j, j ≤ k ∧ urls.get? j = some u) → n ≤ fuel →
      ∃ records : List PageData,
        crawlerRun env input fetch fuel clock [] ⟨[request], seen⟩ dataset =
          some ⟨dataset ++ records.map .page, []⟩ ∧
        records.length = n ∧
        ∀ i d, records.get? i = some d →
          d.error = false ∧ d.searchQuery.page = (k : Int) + (i : Int) + 1 ∧
          d.hasNextPage = true := by
  intro n
  induction n with
  | zero => intro _ _ _ _ _ _ h; omega
  | succ m ih =>
    intro k request clock seen dataset fuel _ hk hurl hpage hseen hfuel
    obtain ⟨fuel1, rfl⟩ : ∃ fuel1, fuel = fuel1 + 1 := ⟨fuel - 1, by omega⟩
    obtain ⟨response, html, dollar, link, domain, hf, hlink, hne, hd, hc, hnext⟩ :=
      hpages k request.url hurl
    obtain ⟨data, hstep, herror, hnum, hhas⟩ :=
      processRequest_of_ok env input fetch clock request ⟨[], seen⟩ dataset response html dollar
        link domain hf hlink hne hd hc
    have hpop : RequestQueue.fetchNextRequest ⟨[request], seen⟩ = some (request, ⟨[], seen⟩) := rfl
    rw [crawlerRun]
    simp only [hpop, hstep, hL]
    by_cases hm : m = 0
    · subst hm
      have hb : belowLimit request.userData.page (some (L : Int)) = false := by
        simp only [belowLimit, decide_eq_false_iff_not]
        rintro ⟨h1, -⟩
        omega
      refine ⟨[data], ?_, rfl, ?_⟩
      · simp [hb, crawlerRun_finished]
      · intro i d hi
        cases i with
        | zero =>
          simp only [List.get?_cons_zero, Option.some.injEq] at hi
          subst hi
          exact ⟨herror, by rw [hnum, hpage]; simp, hhas⟩
        | succ j => simp at hi
    · have hb : belowLimit request.userData.page (some (L : Int)) = true := by
        simp only [belowLimit, decide_eq_true_eq]
        constructor <;> omega
      obtain ⟨u1, hu1⟩ : ∃ u1, urls.get? (k + 1) = some u1 :=
        ⟨urls.get ⟨k + 1, by omega⟩, List.get?_eq_get _⟩
      have hfollow := hnext u1 hu1 (request.userData.page + 1)
      have hfresh : u1 ∉ seen := by
        intro hmem
        obtain ⟨j, hj, hju⟩ := hseen u1 hmem
        exact (List.nodup_iff_get?_ne_get?.mp hnodup j (k + 1) (by omega) (by omega))
          (by rw [hju, hu1])
      have hadd : RequestQueue.addRequest ⟨[], seen⟩
          (env.createSerpRequest ("http://" ++ template (env.urlParse request.url).host ++ link)
            (request.userData.page + 1)) false =
          ⟨[env.createSerpRequest ("http://" ++ template (env.urlParse request.url).host ++ link)
            (request.userData.page + 1)], u1 :: seen⟩ := by
        simp [RequestQueue.addRequest, hfollow, hfresh]
      simp only [hb, if_true, hadd]
      obtain ⟨records, hrun, hreclen, hrec⟩ :=
        ih (k + 1)
          (env.createSerpRequest ("http://" ++ template (env.urlParse request.url).host ++ link)
            (request.userData.page + 1))
          (clock + 2) (u1 :: seen) (dataset ++ [.page data]) fuel1 (by omega) (by omega)
          (by rw [hfollow]; exact hu1) (by rw [hserp, hpage]; push_cast; ring)
          (by
            intro u hu
            rcases List.mem_cons.mp hu with rfl | hu
            · exact ⟨k + 1, le_refl _, hu1⟩
            · obtain ⟨j, hj, hju⟩ := hseen u hu
              exact ⟨j, by omega, hju⟩)
          (by omega)
      refine ⟨data :: records, ?_, by simp [hreclen], ?_⟩
      · rw [hrun]
        simp
      · intro i d hi
        cases i with
        | zero =>
          simp only [List.get?_cons_zero, Option.some.injEq] at hi
          subst hi
          exact ⟨herror, by rw [hnum, hpage]; simp, hhas⟩
        | succ j =>
          simp only [List.get?_cons_succ] at hi
          obtain ⟨h1, h2, h3⟩ := hrec j d hi
          refine ⟨h1, ?_, h3⟩
          rw [h2]
          push_cast
          ring

/-- C4 at a concrete crawl.  The limit is `3`, the seed has page index `0`, every fetch
succeeds and every page carries the same next-page link `/search?q=cats&start=10`.  Page 0
enqueues `...&start=10`; page 1 hands the same URL to the queue, which has seen it and drops
it.  The run ends with two success items, not three. -/
theorem C4_repeated_link_counterexample :
    (∀ url, sampleFetch url =
      some (⟨200⟩, "<html></html>", sampleDollar (some "/search?q=cats&start=10"))) ∧
    (sampleRequest 0).userData.page = 0 ∧
    crawlerRun sampleEnv (sampleInput (some 3)) sampleFetch 10 0 [sampleRequest 0] ⟨[], []⟩ [] =
      some
        ⟨[.page
            { debug := "http://www.google.com/search?q=cats"
              error := false
              searchQuery := ⟨some "cats", "DESKTOP", 1, "SEARCH", "google.com", "US", none,
                none, .fromConst 10⟩
              url := "http://www.google.com/search?q=cats"
              hasNextPage := true
              resultsTotal := "null"
              relatedQueries := "[]"
              paidResults := "[]"
              paidProducts := "[]"
              organicResults := "[]"
              customData := none
              html := none },
          .page
            { debug := "http://www.google.com/search?q=cats&start=10"
              error := false
              searchQuery := ⟨some "cats", "DESKTOP", 2, "SEARCH", "google.com", "US", none,
                none, .fromConst 10⟩
              url := "http://www.google.com/search?q=cats&start=10"
              hasNextPage := true
              resultsTotal := "null"
              relatedQueries := "[]"
              paidResults := "[]"
              paidProducts := "[]"
              organicResults := "[]"
              customData := none
              html := none }],
          []⟩ :=
  ⟨fun _ => rfl, rfl, by decide⟩

/-- C4, as the code has it: the crawl, its queue de-duplicating by URL, seeded with one
request of page index `0`, over a chain of `L` pages with pairwise distinct URLs `urls`
(the seed's first), in which every fetch succeeds and every page has a next-page link that
leads to the next URL of the chain, matches the pattern and passes the hook, and
`createSerpRequest` keeps the page index it is given.  For every limit `L ≥ 1` the run ends
(any fuel from `L` on suffices) with the queue empty and exactly `L` items in the dataset,
all success items with `'#error'` false and `hasNextPage` true, the `i`-th (from `0`) for
page index `i`, so with page number `i + 1`. -/
theorem C4_crawl_ends_with_limit_records (env : Env) (input : Input) (fetch : Fetch)
    (seed : Request) (L fuel : Nat) (urls : List String)
    (hL : input.maxPagesPerQuery = some (L : Int)) (hpos : 1 ≤ L)
    (hseed : seed.userData.page = 0)
    (hlen : urls.length = L) (hnodup : urls.Nodup) (hfirst : urls.get? 0 = some seed.url)
    (hpages : ∀ k u, urls.get? k = some u →
      ∃ response html dollar n domain,
        fetch u = some (response, html, dollar) ∧
        dollar.attr "#pnnext" "href" = some n ∧ n ≠ "" ∧
        searchDomain env u = .ok domain ∧
        (∀ request : Request, request.url = u →
          ∃ custom, customData env input dollar request response html = .ok custom) ∧
        (∀ u1, urls.get? (k + 1) = some u1 → ∀ page,
          (env.createSerpRequest ("http://" ++ template (env.urlParse u).host ++ n) page).url = u1))
    (hserp : ∀ url page, (env.createSerpRequest url page).userData.page = page)
    (hfuel : L ≤ fuel) :
    ∃ records : List PageData,
      crawlerRun env input fetch fuel 0 [seed] ⟨[], []⟩ [] = some ⟨records.map .page, []⟩ ∧
      records.length = L ∧
      (∀ i d, records.get? i = some d →
        d.error = false ∧ d.searchQuery.page = (i : Int) + 1 ∧ d.hasNextPage = true) ∧
      (∃ last, records.getLast? = some last ∧ last.hasNextPage = true) := by
  obtain ⟨records, hrun, hreclen, hrec⟩ :=
    crawlerRun_chain env input fetch L urls hL hpos hlen hnodup hpages hserp L 0 seed 0
      [seed.url] [] fuel hpos (by omega) hfirst (by rw [hseed]; simp)
      (by
        intro u hu
        rw [List.mem_singleton] at hu
        exact ⟨0, le_refl _, by rw [hu]; exact hfirst⟩)
      hfuel
  have hsame : crawlerRun env input fetch fuel 0 [seed] ⟨[], []⟩ [] =
      crawlerRun env input fetch fuel 0 [] ⟨[seed], [seed.url]⟩ [] := by
    obtain ⟨fuel1, rfl⟩ : ∃ fuel1, fuel = fuel1 + 1 := ⟨fuel - 1, by omega⟩
    simp [crawlerRun, RequestQueue.addRequest, RequestQueue.fetchNextRequest]
  refine ⟨records, by rw [hsame, hrun]; simp, hreclen, ?_, ?_⟩
  · intro i d hi
    obtain ⟨h1, h2, h3⟩ := hrec i d hi
    exact ⟨h1, by rw [h2]; simp, h3⟩
  · have hne : records ≠ [] := by
      intro h
      rw [h] at hreclen
      simp at hreclen
      omega
    refine ⟨records.getLast hne, List.getLast?_eq_getLast _ hne, ?_⟩
    have hget : records.get? (records.length - 1) = some (records.getLast hne) := by
      rw [List.getLast_eq_getElem]
      simp only [List.get?_eq_getElem?]
      exact List.getElem?_eq_getElem _
    exact (hrec _ _ hget).2.2

/-- C4, as the code has it, with `L = 2` on the sample collaborators: two items, for page
numbers 1 and 2, the second with `hasNextPage` true. -/
theorem C4_crawl_ends_with_limit_records_witness :
    ∃ records : List PageData,
      crawlerRun sampleEnv (sampleInput (some 2)) sampleFetch 2 0 [sampleRequest 0] ⟨[], []⟩ [] =
        some ⟨records.map .page, []⟩ ∧
      records.length = 2 ∧
      (∀ i d, records.get? i = some d →
        d.error = false ∧ d.searchQuery.page = (i : Int) + 1 ∧ d.hasNextPage = true) ∧
      (∃ last, records.getLast? = some last ∧ last.hasNextPage = true) :=
  C4_crawl_ends_with_limit_records sampleEnv (sampleInput (some 2)) sampleFetch
    (sampleRequest 0) 2 2
    ["http://www.google.com/search?q=cats", "http://www.google.com/search?q=cats&start=10"]
    rfl (by decide) rfl rfl (by decide) rfl
    (fun k u hk =>
      match k, hk with
      | 0, hk => by
        simp only [List.get?_cons_zero, Option.some.injEq] at hk
        subst hk
        exact ⟨⟨200⟩, "<html></html>", sampleDollar (some "/search?q=cats&start=10"),
          "/search?q=cats&start=10", "google.com", rfl, rfl, by decide, rfl,
          fun _ _ => ⟨none, rfl⟩,
          fun u1 h1 _ => by
            simp only [List.get?_cons_succ, List.get?_cons_zero, Option.some.injEq] at h1
            subst h1
            rfl⟩
      | 1, hk => by
        simp only [List.get?_cons_succ, List.get?_cons_zero, Option.some.injEq] at hk
        subst hk
        exact ⟨⟨200⟩, "<html></html>", sampleDollar (some "/search?q=cats&start=10"),
          "/search?q=cats&start=10", "google.com", rfl, rfl, by decide, rfl,
          fun _ _ => ⟨none, rfl⟩,
          fun u1 h1 _ => by simp at h1⟩
      | k + 2, hk => by simp at hk)
    (fun _ _ => rfl) (by decide)

end GoogleSearchScraper
